import Mathlib

/-!
Verification of the twake-assistant real-time transcription client.

This file gives a shallow embedding of the two components of the
repository that carry its behavioural specification:

* the `WhisperAudioProcessor` AudioWorklet (frame accumulator), which
  buffers 128-sample microphone frames and emits fixed 1600-sample
  chunks (`src/unnamed/part_001`, duplicated inline in
  `src/src/components/Whisper/useAudioCapture.js`);

* the `WhisperTranscription` React component (streaming session
  client), which manages the session lifecycle (`createSession`,
  `processSession`, `endSession`, `sendChunk`, the stop handler and the
  save-on-stop effect) and the committed/uncommitted segment lists
  (`src/unnamed/part_001`).

Audio samples are modelled generically (`α`): the accumulator moves
samples around without inspecting them, so no floating-point reasoning
is needed.  The React component's state is a record; each network call
is modelled as a pure state transformer parameterised by the outcome of
the underlying `fetch` (success body, non-2xx status, or a thrown
network error), mirroring exactly the branches of the source.
-/

/-- Chunk threshold of the accumulator: 1600 samples (100 ms at 16 kHz).
Source: `this.chunkSize = 1600` in the worklet constructor. -/
def chunkSize : Nat := 1600

/-- Result of one `process` call of the worklet: the new internal
buffer, the chunk posted to the main thread (if any), and the boolean
the function returns (`true` keeps the processor alive). -/
structure StepResult (α : Type) where
  buffer : List α
  emitted : Option (List α)
  keepAlive : Bool
  deriving DecidableEq

namespace WhisperAudioProcessor

/-- One call of `WhisperAudioProcessor.process(inputs, ...)`.
`inputs` is the list of inputs, each input a list of channels, each
channel a list of samples.  Faithful to the source: missing input or an
empty channel list returns early (buffer untouched, still alive); the
first channel's samples are appended to the buffer; if the buffer has
reached `chunkSize`, `splice(0, chunkSize)` removes the oldest
`chunkSize` samples and posts them as one chunk. -/
def process {α : Type} (buffer : List α) (inputs : List (List (List α))) :
    StepResult α :=
  match inputs with
  | [] => ⟨buffer, none, true⟩
  | input :: _ =>
    match input with
    | [] => ⟨buffer, none, true⟩
    | inputChannel :: _ =>
      let buf := buffer ++ inputChannel
      if chunkSize ≤ buf.length then
        ⟨buf.drop chunkSize, some (buf.take chunkSize), true⟩
      else
        ⟨buf, none, true⟩

/-- Messages understood by the worklet's port (`this.port.onmessage`). -/
inductive PortCommand
  | clear
  | other (s : String)

/-- The worklet's `onmessage` handler: the command `clear` resets the
internal buffer to `[]`; any other message leaves it unchanged. -/
def onmessage {α : Type} (buffer : List α) (cmd : PortCommand) : List α :=
  match cmd with
  | .clear => []
  | .other _ => buffer

end WhisperAudioProcessor

/-- Drive the worklet over a stream of mono frames: each frame is
delivered as `inputs = [[frame]]` (one input, one channel), exactly as
the browser delivers microphone audio to `process`.  Returns the final
internal buffer and the list of emitted chunks in order. -/
def feedFrames {α : Type} (buffer : List α) :
    List (List α) → List α × List (List α)
  | [] => (buffer, [])
  | f :: fs =>
    let r := WhisperAudioProcessor.process buffer [[f]]
    let rest := feedFrames r.buffer fs
    (rest.1, r.emitted.toList ++ rest.2)

/-- One feed step when the accumulated buffer reaches the threshold:
one chunk of the `chunkSize` oldest samples is emitted, the rest stays
buffered. -/
theorem feedFrames_cons_emit {α : Type} (buffer f : List α)
    (fs : List (List α)) (h : chunkSize ≤ (buffer ++ f).length) :
    feedFrames buffer (f :: fs) =
      ((feedFrames ((buffer ++ f).drop chunkSize) fs).1,
        (buffer ++ f).take chunkSize ::
          (feedFrames ((buffer ++ f).drop chunkSize) fs).2) := by
  have h' : chunkSize ≤ buffer.length + f.length := by simpa using h
  simp [feedFrames, WhisperAudioProcessor.process, h']

/-- One feed step below the threshold: nothing is emitted, the frame is
appended to the buffer. -/
theorem feedFrames_cons_keep {α : Type} (buffer f : List α)
    (fs : List (List α)) (h : ¬ chunkSize ≤ (buffer ++ f).length) :
    feedFrames buffer (f :: fs) = feedFrames (buffer ++ f) fs := by
  have h' : ¬ chunkSize ≤ buffer.length + f.length := by simpa using h
  simp [feedFrames, WhisperAudioProcessor.process, h']

/-- Sample conservation: the emitted chunks followed by the final buffer
are exactly the initial buffer followed by the whole input stream. -/
theorem feedFrames_flatten {α : Type} (fs : List (List α)) (buffer : List α) :
    (feedFrames buffer fs).2.flatten ++ (feedFrames buffer fs).1 =
      buffer ++ fs.flatten := by
  induction fs generalizing buffer with
  | nil => simp [feedFrames]
  | cons f fs ih =>
    by_cases h : chunkSize ≤ (buffer ++ f).length
    · rw [feedFrames_cons_emit buffer f fs h]
      simp only [List.flatten_cons, List.append_assoc]
      rw [ih]
      rw [← List.append_assoc, List.take_append_drop]
      simp
    · rw [feedFrames_cons_keep buffer f fs h, ih]
      simp

/-- Every emitted chunk has length exactly `chunkSize`, whatever the
frame sizes: a chunk is only built (by `take chunkSize`) when the
buffer holds at least `chunkSize` samples. -/
theorem feedFrames_chunk_length {α : Type} (fs : List (List α))
    (buffer : List α) :
    ∀ c ∈ (feedFrames buffer fs).2, c.length = chunkSize := by
  induction fs generalizing buffer with
  | nil => simp [feedFrames]
  | cons f fs ih =>
    intro c hc
    by_cases h : chunkSize ≤ (buffer ++ f).length
    · rw [feedFrames_cons_emit buffer f fs h] at hc
      rcases List.mem_cons.mp hc with hc | hc
      · subst hc
        rw [List.length_take]
        omega
      · exact ih _ c hc
    · rw [feedFrames_cons_keep buffer f fs h] at hc
      exact ih _ c hc

/-- The buffer stays below `chunkSize` after every step, provided it
starts below `chunkSize` and every frame is at most `chunkSize` long
(the browser's frames are 128 samples). -/
theorem feedFrames_buffer_lt {α : Type} (fs : List (List α))
    (buffer : List α) (hb : buffer.length < chunkSize)
    (hf : ∀ f ∈ fs, f.length ≤ chunkSize) :
    (feedFrames buffer fs).1.length < chunkSize := by
  induction fs generalizing buffer with
  | nil => simpa [feedFrames] using hb
  | cons f fs ih =>
    have hflen : f.length ≤ chunkSize := hf f (by simp)
    by_cases h : chunkSize ≤ (buffer ++ f).length
    · rw [feedFrames_cons_emit buffer f fs h]
      apply ih
      · simp only [List.length_drop, List.length_append]
        simp only [List.length_append] at h
        omega
      · intro g hg
        exact hf g (by simp [hg])
    · rw [feedFrames_cons_keep buffer f fs h]
      apply ih
      · simp only [List.length_append] at h ⊢
        omega
      · intro g hg
        exact hf g (by simp [hg])

/-- Total length of a list of lists all of length `k`. -/
theorem flatten_length_of_uniform {α : Type} (l : List (List α)) (k : Nat)
    (h : ∀ c ∈ l, c.length = k) : l.flatten.length = l.length * k := by
  induction l with
  | nil => simp
  | cons c cs ih =>
    simp only [List.flatten_cons, List.length_append, List.length_cons]
    rw [h c (by simp), ih (fun d hd => h d (by simp [hd]))]
    ring

/-!
Streaming session client (`WhisperTranscription` component).

Each `fetch`-backed operation is modelled as a pure state transformer
taking the outcome of the network call as a parameter.  A `fetch`
resolves with a response (possibly non-2xx, in which case the source
throws a fixed message from inside the `try`) or rejects (network
error), which the source's `catch` turns into `setError(err.message)`.
-/

/-- Transcription segment as returned by the backend:
`{ text, timestamp: [start, end] }`.  The client only ever reads the
`text` field; timestamps are carried opaquely (as rationals, since the
client performs no arithmetic on them). -/
structure Segment where
  text : String
  timestamp : List Rat
  deriving DecidableEq

/-- Doctype tag of persisted transcriptions (`TRANSCRIPTIONS_DOCTYPE`). -/
def TRANSCRIPTIONS_DOCTYPE : String := "io.cozy.transcriptions"

/-- Document persisted by `client.save` on stop:
`{ _type, text, language, createdAt, wordCount }`. -/
structure TranscriptionRecord where
  doctype : String
  text : String
  language : String
  createdAt : String
  wordCount : Nat
  deriving DecidableEq

/-- State of the `WhisperTranscription` component: the `useState`
fields, the `isRecording` flag of the `useAudioCapture` hook, and the
list of documents written so far through `client.save` (modelling the
external document store as an append log). -/
structure ComponentState where
  sessionId : Option String
  committedSegments : List Segment
  uncommittedSegments : List Segment
  isProcessing : Bool
  error : Option String
  language : String
  copied : Bool
  shouldSave : Bool
  isRecording : Bool
  savedRecords : List TranscriptionRecord
  deriving DecidableEq

/-- Initial component state (`useState` initial values; language
defaults to French). -/
def initialState : ComponentState :=
  { sessionId := none
    committedSegments := []
    uncommittedSegments := []
    isProcessing := false
    error := none
    language := "fr"
    copied := false
    shouldSave := false
    isRecording := false
    savedRecords := [] }

/-- Body of a successful `/session/{id}/process` response.  Either
field may be absent from the JSON (`none`). -/
structure ProcessResponse where
  committed : Option (List Segment)
  uncommitted : Option (List Segment)
  deriving DecidableEq

/-- Outcome of the `fetch` inside `processSession`: a parsed 2xx
response body, or the failure message produced by the `catch` (the
fixed string for a non-2xx status, or the network error's message). -/
inductive PollOutcome
  | success (data : ProcessResponse)
  | failure (msg : String)
  deriving DecidableEq

/-- `processSession`: no-op without a session id.  On success, the
committed list is replaced only when the response's `committed` is
present and non-empty (`data.committed && data.committed.length > 0`),
and the uncommitted list is replaced by `data.uncommitted` when present
and emptied otherwise.  On failure the error is surfaced; segments are
untouched.  `isProcessing` ends up `false` on both paths. -/
def processSession (st : ComponentState) (out : PollOutcome) :
    ComponentState :=
  match st.sessionId with
  | none => st
  | some _ =>
    match out with
    | .failure msg => { st with isProcessing := false, error := some msg }
    | .success data =>
      let committedNew :=
        match data.committed with
        | some c => if 0 < c.length then c else st.committedSegments
        | none => st.committedSegments
      let uncommittedNew :=
        match data.uncommitted with
        | some u => u
        | none => []
      { st with
          committedSegments := committedNew
          uncommittedSegments := uncommittedNew
          isProcessing := false }

/-- Outcome of the `fetch` to `/session/{id}/end`.  The source never
inspects this response's status (`completed` covers any HTTP status);
only a rejected promise (network error) throws. -/
inductive EndOutcome
  | completed (ok : Bool)
  | networkError (msg : String)
  deriving DecidableEq

/-- `endSession`: no-op without a session id.  Otherwise: one final
`processSession` (which never throws — it has its own catch), then the
end request; if the end request completes, `setSessionId(null)`; if it
throws, the `catch` surfaces the error and — faithful to the source —
the `setSessionId(null)` line is skipped. -/
def endSession (st : ComponentState) (pollOut : PollOutcome)
    (endOut : EndOutcome) : ComponentState :=
  match st.sessionId with
  | none => st
  | some _ =>
    let st1 := processSession st pollOut
    match endOut with
    | .completed _ => { st1 with sessionId := none }
    | .networkError msg => { st1 with error := some msg }

/-- Outcome of the `fetch` inside `createSession`: a 2xx response
carrying `session_id`, a non-2xx status (the source throws
"Failed to create session"), or a network error. -/
inductive CreateOutcome
  | success (sid : String)
  | httpError
  | networkError (msg : String)
  deriving DecidableEq

/-- `createSession`: clears the error, issues the request; on success
stores the returned session id and returns it; on any failure surfaces
the message and returns `null` — the session id field is not touched on
failure. -/
def createSession (st : ComponentState) (out : CreateOutcome) :
    ComponentState × Option String :=
  let st0 := { st with error := none }
  match out with
  | .success sid => ({ st0 with sessionId := some sid }, some sid)
  | .httpError => ({ st0 with error := some "Failed to create session" }, none)
  | .networkError msg => ({ st0 with error := some msg }, none)

/-- `handleStartRecording` up to the start of capture: reset error,
segment lists and the pending-save flag, create the session; if
`createSession` returned `null`, return early (never recording);
otherwise start audio capture, which sets `isRecording` when the
microphone is available (`micOk`). -/
def handleStartRecording (st : ComponentState) (out : CreateOutcome)
    (micOk : Bool) : ComponentState :=
  let st1 := { st with
    error := none
    committedSegments := []
    uncommittedSegments := []
    shouldSave := false }
  let res := createSession st1 out
  match res.2 with
  | none => res.1
  | some _ => if micOk then { res.1 with isRecording := true } else res.1

/-- Outcome of the `fetch` inside the inline `sendChunk` callback: a
2xx response, a non-2xx status (the source throws
"Failed to send audio chunk"), or a network error. -/
inductive ChunkOutcome
  | okResp
  | httpError
  | networkError (msg : String)
  deriving DecidableEq

/-- The inline `sendChunk` callback: transmits one base64 chunk; on
success nothing changes; on failure the error message is surfaced and
nothing else happens (no retry, no abort). -/
def sendChunk (st : ComponentState) (out : ChunkOutcome) : ComponentState :=
  match out with
  | .okResp => st
  | .httpError => { st with error := some "Failed to send audio chunk" }
  | .networkError msg => { st with error := some msg }

/-- `stopRecording` of the `useAudioCapture` hook: tears down the audio
graph and clears the recording flag. -/
def stopRecordingHook (st : ComponentState) : ComponentState :=
  { st with isRecording := false }

/-- `handleStopRecording`: cancel the polling interval, stop audio
capture, set the pending-save flag, then `endSession`. -/
def handleStopRecording (st : ComponentState) (pollOut : PollOutcome)
    (endOut : EndOutcome) : ComponentState :=
  let st1 := stopRecordingHook st
  let st2 := { st1 with shouldSave := true }
  endSession st2 pollOut endOut

/-- JavaScript's `String.prototype.trim`: strips leading and trailing
whitespace from the character sequence. -/
def jsTrim (s : String) : String :=
  ⟨((s.data.dropWhile Char.isWhitespace).reverse.dropWhile
      Char.isWhitespace).reverse⟩

/-- JavaScript's `Array.prototype.join(' ')`: the elements concatenated
with a single space between consecutive elements ("" on the empty
list). -/
def joinWithSpace : List String → String
  | [] => ""
  | x :: xs => xs.foldl (fun acc s => acc ++ " " ++ s) x

/-- `getTranscriptionText`: the committed segment texts joined with
single spaces (`committedSegments.map(s => s.text).join(' ')`). -/
def getTranscriptionText (segs : List Segment) : String :=
  joinWithSpace (segs.map Segment.text)

/-- Body of the `saveTranscription` closure inside the save effect:
joins the committed texts; when the text is non-empty and does not trim
to empty, persists one `TranscriptionRecord` (or surfaces a
persistence error when `client.save` rejects with `saveErr`); in every
case the pending-save flag is reset afterwards. -/
def saveTranscription (st : ComponentState) (now : String)
    (saveErr : Option String) : ComponentState :=
  let text := getTranscriptionText st.committedSegments
  let st1 :=
    if text ≠ "" ∧ jsTrim text ≠ "" then
      match saveErr with
      | none =>
        { st with savedRecords := st.savedRecords ++
            [{ doctype := TRANSCRIPTIONS_DOCTYPE
               text := text
               language := st.language
               createdAt := now
               wordCount := st.committedSegments.length }] }
      | some msg =>
        { st with error := some ("Erreur lors de la sauvegarde: " ++ msg) }
    else st
  { st1 with shouldSave := false }

/-- The save `useEffect`: runs `saveTranscription` exactly when the
pending-save flag is set and the session id has been cleared
(`if (!shouldSave || sessionId) return`). -/
def saveEffect (st : ComponentState) (now : String)
    (saveErr : Option String) : ComponentState :=
  if st.shouldSave = true ∧ st.sessionId = none then
    saveTranscription st now saveErr
  else st

/-- A complete stop: `handleStopRecording` followed by the run of the
save effect it unblocks. -/
def stopFlow (st : ComponentState) (pollOut : PollOutcome)
    (endOut : EndOutcome) (now : String) (saveErr : Option String) :
    ComponentState :=
  saveEffect (handleStopRecording st pollOut endOut) now saveErr

/-!
Helper lemmas about space-joined text and state projections.
-/

/-- Folding further strings onto an accumulator with a space separator
only ever extends the accumulator on the right. -/
theorem foldl_space_extend (l : List String) (init : String) :
    ∃ t, l.foldl (fun acc s => acc ++ " " ++ s) init = init ++ t := by
  induction l generalizing init with
  | nil => exact ⟨"", by simp⟩
  | cons y ys ih =>
    obtain ⟨t, ht⟩ := ih (init ++ " " ++ y)
    refine ⟨" " ++ y ++ t, ?_⟩
    rw [List.foldl_cons, ht]
    simp [String.append_assoc]

/-- Space-joining an extended list yields an extension of the original
join: the old text is a left part of the new text. -/
theorem joinWithSpace_extend (a rest : List String) :
    ∃ t, joinWithSpace (a ++ rest) = joinWithSpace a ++ t := by
  cases a with
  | nil => exact ⟨joinWithSpace rest, by simp [joinWithSpace]⟩
  | cons x xs =>
    have h1 : joinWithSpace ((x :: xs) ++ rest) =
        rest.foldl (fun acc s => acc ++ " " ++ s) (joinWithSpace (x :: xs)) := by
      simp [joinWithSpace, List.cons_append, List.foldl_append]
    obtain ⟨t, ht⟩ := foldl_space_extend rest (joinWithSpace (x :: xs))
    exact ⟨t, by rw [h1, ht]⟩

/-- `processSession` never changes the stored session identifier. -/
theorem processSession_sessionId (st : ComponentState) (out : PollOutcome) :
    (processSession st out).sessionId = st.sessionId := by
  unfold processSession
  cases h : st.sessionId with
  | none => simpa using h
  | some sid => cases out <;> simp [h]

/-- Division characterisation used for chunk counting. -/
theorem chunk_count_div (L r T : Nat) (h1 : L * chunkSize + r = T)
    (h2 : r < chunkSize) : L = T / chunkSize := by
  simp only [chunkSize] at h1 h2 ⊢
  omega

/-!
Claim theorems: frame accumulator (C4, C5, C9).
-/

set_option maxRecDepth 20000 in
/-- Claim C4, counterexample: the claim as stated quantifies over every
uniform frame length F.  For a single frame of F = 3200 samples the
accumulator emits only one chunk per `process` call, so it emits 1
chunk where floor(N*F/1600) = 2, and 1600 (not at most 1599) samples
remain buffered. -/
theorem feedFrames_overlong_frame_counterexample :
    (feedFrames [] [List.replicate 3200 (0 : Int)]).2.length = 1 ∧
    1 * 3200 / chunkSize = 2 ∧
    (feedFrames [] [List.replicate 3200 (0 : Int)]).1.length = chunkSize := by
  have h : chunkSize ≤ (([] : List Int) ++ List.replicate 3200 0).length := by
    rw [List.nil_append, List.length_replicate]
    decide
  refine ⟨?_, by decide, ?_⟩
  · rw [feedFrames_cons_emit _ _ _ h]
    rfl
  · rw [feedFrames_cons_emit _ _ _ h]
    show (List.drop chunkSize
      (([] : List Int) ++ List.replicate 3200 0)).length = chunkSize
    rw [List.nil_append, List.length_drop, List.length_replicate]
    decide

/-- Claim C4 (amended with F ≤ 1600, forced by the counterexample: the
source emits at most one chunk per call, so frames longer than one
chunk overfill the buffer; the browser's actual frames are 128 samples):
for a stream of N uniform frames of length F ≤ 1600 starting from an
empty buffer, the number of emitted chunks is floor(N*F/1600), every
chunk is exactly 1600 samples long, the chunks followed by the final
buffer reproduce the input stream in order, and at most 1599 samples
remain buffered. -/
theorem feedFrames_uniform_stream_spec (N F : Nat) (f : List Int)
    (hF : f.length = F) (hFle : F ≤ chunkSize) :
    (feedFrames [] (List.replicate N f)).2.length = N * F / chunkSize ∧
    (∀ c ∈ (feedFrames [] (List.replicate N f)).2, c.length = chunkSize) ∧
    (feedFrames [] (List.replicate N f)).2.flatten ++
        (feedFrames [] (List.replicate N f)).1 =
      (List.replicate N f).flatten ∧
    (feedFrames [] (List.replicate N f)).1.length ≤ chunkSize - 1 := by
  have hchunks := feedFrames_chunk_length (List.replicate N f) ([] : List Int)
  have hflat := feedFrames_flatten (List.replicate N f) ([] : List Int)
  have hlt : (feedFrames [] (List.replicate N f)).1.length < chunkSize := by
    apply feedFrames_buffer_lt
    · simp [chunkSize]
    · intro g hg
      rw [List.eq_of_mem_replicate hg, hF]
      exact hFle
  have htotal : (List.replicate N f).flatten.length = N * F := by
    rw [List.length_flatten]
    simp [hF, List.map_replicate, List.sum_replicate, smul_eq_mul]
  have hcount : (feedFrames [] (List.replicate N f)).2.length * chunkSize +
      (feedFrames [] (List.replicate N f)).1.length = N * F := by
    have hl := congrArg List.length hflat
    rw [List.length_append,
      flatten_length_of_uniform _ _ hchunks] at hl
    simpa [htotal] using hl
  refine ⟨chunk_count_div _ _ _ hcount hlt, hchunks, by simpa using hflat,
    by omega⟩

/-- Claim C4 witness: 25 frames of 128 samples each (3200 samples in
total) yield floor(3200/1600) = 2 chunks. -/
theorem feedFrames_uniform_stream_spec_witness :
    (List.replicate 128 (0 : Int)).length = 128 ∧ 128 ≤ chunkSize ∧
    (feedFrames [] (List.replicate 25 (List.replicate 128 (0 : Int)))).2.length
      = 25 * 128 / chunkSize :=
  ⟨by rw [List.length_replicate], by decide,
    (feedFrames_uniform_stream_spec 25 128 (List.replicate 128 0)
      (by rw [List.length_replicate]) (by decide)).1⟩

/-- Claim C5: one `process` call appends the frame's samples; if the
buffer has then reached 1600 samples, exactly one chunk is emitted,
consisting of exactly the 1600 oldest samples, which are removed from
the buffer (FIFO: chunk ++ remaining buffer = old buffer ++ frame);
below 1600, no chunk is emitted and the whole accumulation is kept, so
no partially filled chunk is ever emitted. -/
theorem process_emit_exactly_at_threshold {α : Type}
    (buffer frame : List α) :
    (chunkSize ≤ (buffer ++ frame).length →
      WhisperAudioProcessor.process buffer [[frame]] =
        ⟨(buffer ++ frame).drop chunkSize,
          some ((buffer ++ frame).take chunkSize), true⟩ ∧
      ((buffer ++ frame).take chunkSize).length = chunkSize ∧
      (buffer ++ frame).take chunkSize ++ (buffer ++ frame).drop chunkSize =
        buffer ++ frame) ∧
    ((buffer ++ frame).length < chunkSize →
      WhisperAudioProcessor.process buffer [[frame]] =
        ⟨buffer ++ frame, none, true⟩) := by
  constructor
  · intro h
    have h' : chunkSize ≤ buffer.length + frame.length := by
      simpa using h
    refine ⟨by simp [WhisperAudioProcessor.process, h'], ?_,
      List.take_append_drop _ _⟩
    rw [List.length_take]
    simp only [List.length_append] at h ⊢
    omega
  · intro h
    have h' : ¬ chunkSize ≤ buffer.length + frame.length := by
      rw [List.length_append] at h
      omega
    simp [WhisperAudioProcessor.process, h']

/-- Claim C5 witness: a 1599-sample buffer plus a one-sample frame
reaches the threshold and the call emits the single full chunk. -/
theorem process_emit_exactly_at_threshold_witness :
    chunkSize ≤ ((List.replicate 1599 (0 : Int)) ++ [5]).length ∧
    WhisperAudioProcessor.process (List.replicate 1599 (0 : Int)) [[[5]]] =
      ⟨((List.replicate 1599 (0 : Int)) ++ [5]).drop chunkSize,
        some (((List.replicate 1599 (0 : Int)) ++ [5]).take chunkSize),
        true⟩ :=
  ⟨by rw [List.length_append, List.length_replicate]; decide,
    ((process_emit_exactly_at_threshold (List.replicate 1599 0) [5]).1
      (by rw [List.length_append, List.length_replicate]; decide)).1⟩

/-- Claim C9: the `clear` port command empties the internal buffer (and
the processor keeps running — `process` still accepts frames and always
reports itself alive); feeding post-reset frames whose sample counts
sum to exactly 1600 emits exactly one chunk holding exactly those
post-reset samples, leaving the buffer empty. -/
theorem clear_then_exact_chunk (buffer : List Int)
    (frames : List (List Int)) (hsum : frames.flatten.length = chunkSize) :
    WhisperAudioProcessor.onmessage buffer
        WhisperAudioProcessor.PortCommand.clear = [] ∧
    feedFrames (WhisperAudioProcessor.onmessage buffer
        WhisperAudioProcessor.PortCommand.clear) frames =
      ([], [frames.flatten]) := by
  refine ⟨rfl, ?_⟩
  show feedFrames [] frames = ([], [frames.flatten])
  have hle : ∀ f ∈ frames, f.length ≤ chunkSize := by
    intro f hf
    have hmem : f.length ∈ frames.map List.length := List.mem_map_of_mem _ hf
    have := List.single_le_sum (l := frames.map List.length)
      (fun x _ => Nat.zero_le x) _ hmem
    rw [← List.length_flatten, hsum] at this
    exact this
  have hchunks := feedFrames_chunk_length frames ([] : List Int)
  have hflat := feedFrames_flatten frames ([] : List Int)
  have hlt : (feedFrames [] frames).1.length < chunkSize :=
    feedFrames_buffer_lt frames [] (by simp [chunkSize]) hle
  have hcount : (feedFrames [] frames).2.length * chunkSize +
      (feedFrames [] frames).1.length = chunkSize := by
    have hl := congrArg List.length hflat
    rw [List.length_append, flatten_length_of_uniform _ _ hchunks] at hl
    simpa [hsum] using hl
  have hone : (feedFrames [] frames).2.length = 1 := by
    simp only [chunkSize] at hcount hlt
    omega
  obtain ⟨c, hc⟩ := List.length_eq_one.mp hone
  have hbuf : (feedFrames [] frames).1 = [] := by
    apply List.length_eq_zero.mp
    simp only [chunkSize] at hcount hlt
    omega
  have hcval : c = frames.flatten := by
    have h2 := hflat
    rw [hc, hbuf] at h2
    simpa using h2
  have hpair : feedFrames ([] : List Int) frames =
      ((feedFrames [] frames).1, (feedFrames [] frames).2) := rfl
  rw [hpair, hbuf, hc, hcval]

/-- Claim C9 witness: after a reset of a non-empty buffer, two frames
of 800 samples each (1600 in total) produce exactly the one chunk made
of those samples. -/
theorem clear_then_exact_chunk_witness :
    ([List.replicate 800 (1 : Int), List.replicate 800 (2 : Int)] :
        List (List Int)).flatten.length = chunkSize ∧
    feedFrames (WhisperAudioProcessor.onmessage [7, 7, 7]
        WhisperAudioProcessor.PortCommand.clear)
      [List.replicate 800 (1 : Int), List.replicate 800 (2 : Int)] =
      ([], [([List.replicate 800 (1 : Int),
        List.replicate 800 (2 : Int)] : List (List Int)).flatten]) :=
  ⟨by simp only [List.flatten_cons, List.flatten_nil, List.append_nil,
      List.length_append, List.length_replicate]; decide,
    (clear_then_exact_chunk [7, 7, 7] _
      (by simp only [List.flatten_cons, List.flatten_nil, List.append_nil,
        List.length_append, List.length_replicate]; decide)).2⟩

/-!
Claim theorems: streaming session client (C1, C2, C3, C6, C7, C8, C10).
-/

/-- Claim C1: on a successful `processSession` poll with a session in
place, the committed list is replaced by the response's committed list
exactly when that list is present and non-empty (an empty or absent
committed list leaves the stored committed segments unchanged), and the
uncommitted list is replaced wholesale by the response's uncommitted
list, or emptied when that field is absent. -/
theorem processSession_merge (st : ComponentState) (sid : String)
    (data : ProcessResponse) (hsid : st.sessionId = some sid) :
    ((data.committed = none ∨ data.committed = some []) →
      (processSession st (.success data)).committedSegments =
        st.committedSegments) ∧
    (∀ c, data.committed = some c → c ≠ [] →
      (processSession st (.success data)).committedSegments = c) ∧
    (∀ u, data.uncommitted = some u →
      (processSession st (.success data)).uncommittedSegments = u) ∧
    (data.uncommitted = none →
      (processSession st (.success data)).uncommittedSegments = []) := by
  obtain ⟨dc, du⟩ := data
  refine ⟨?_, ?_, ?_, ?_⟩
  · rintro (h | h) <;> simp only at h <;> subst h <;>
      simp [processSession, hsid]
  · rintro c hc hne
    simp only at hc
    subst hc
    simp [processSession, hsid, List.length_pos.mpr hne]
  · rintro u hu
    simp only at hu
    subst hu
    simp [processSession, hsid]
  · intro h
    simp only at h
    subst h
    simp [processSession, hsid]

/-- Claim C1 witness: the spec's poll example.  With committed ["a"]
stored, a response with an empty committed list and uncommitted ["c"]
leaves committed at ["a"] and the direct computation shows uncommitted
becomes ["c"]. -/
theorem processSession_merge_witness :
    ({ initialState with
        sessionId := some "s"
        committedSegments := [⟨"a", []⟩] } : ComponentState).sessionId =
      some "s" ∧
    (processSession
        { initialState with
          sessionId := some "s"
          committedSegments := [⟨"a", []⟩] }
        (.success ⟨some [], some [⟨"c", []⟩]⟩)).committedSegments =
      [⟨"a", []⟩] ∧
    (processSession
        { initialState with
          sessionId := some "s"
          committedSegments := [⟨"a", []⟩] }
        (.success ⟨some [], some [⟨"c", []⟩]⟩)).uncommittedSegments =
      [⟨"c", []⟩] :=
  ⟨rfl,
    (processSession_merge _ "s" _ rfl).1 (Or.inr rfl),
    (processSession_merge _ "s" _ rfl).2.2.1 [⟨"c", []⟩] rfl⟩

/-- Claim C2 counterexample: the committed text is NOT monotonically
non-decreasing over arbitrary successful polls.  The client replaces
the committed list wholesale with any non-empty response list, so with
["aa"] stored, a response carrying committed ["b"] shrinks the
displayed committed text from "aa" (length 2) to "b" (length 1). -/
theorem processSession_committed_can_shrink :
    (getTranscriptionText (processSession
        { initialState with
          sessionId := some "s"
          committedSegments := [⟨"aa", []⟩] }
        (.success ⟨some [⟨"b", []⟩], none⟩)).committedSegments).length <
      (getTranscriptionText
        ({ initialState with
            sessionId := some "s"
            committedSegments := [⟨"aa", []⟩] } :
          ComponentState).committedSegments).length := by
  decide

/-- Claim C2 (amended, forced by the counterexample: the client applies
wholesale replacement, so monotonic growth of the committed text holds
exactly when each successful response's non-empty committed list
extends the currently stored list — the behaviour assumed of the
backend by the spec, as in the growth example ["a"] then ["a","d"]):
under that extension hypothesis the committed text after a successful
poll has the previous committed text as an initial part — it never
shrinks. -/
theorem processSession_committed_monotone (st : ComponentState)
    (sid : String) (data : ProcessResponse)
    (hsid : st.sessionId = some sid)
    (hext : ∀ c, data.committed = some c → c ≠ [] →
      ∃ rest, c = st.committedSegments ++ rest) :
    ∃ t, getTranscriptionText
        (processSession st (.success data)).committedSegments =
      getTranscriptionText st.committedSegments ++ t := by
  obtain ⟨dc, du⟩ := data
  cases dc with
  | none =>
    refine ⟨"", ?_⟩
    simp [processSession, hsid]
  | some c =>
    by_cases hc : c = []
    · subst hc
      refine ⟨"", ?_⟩
      simp [processSession, hsid]
    · obtain ⟨rest, hrest⟩ := hext c rfl hc
      have hpos : 0 < c.length := List.length_pos.mpr hc
      have hcommitted :
          (processSession st (.success ⟨some c, du⟩)).committedSegments
            = c := by
        simp [processSession, hsid, hpos]
      rw [hcommitted, hrest]
      simp only [getTranscriptionText, List.map_append]
      exact joinWithSpace_extend _ _

/-- Claim C2 witness: the spec's growth example.  With committed ["a"]
stored, a poll returning committed ["a","d"] extends the stored list,
so the new text extends "a"; the direct computation shows it is
exactly "a d". -/
theorem processSession_committed_monotone_witness :
    (∃ t, getTranscriptionText (processSession
        { initialState with
          sessionId := some "s"
          committedSegments := [⟨"a", []⟩] }
        (.success ⟨some [⟨"a", []⟩, ⟨"d", []⟩], none⟩)).committedSegments =
      getTranscriptionText
        ({ initialState with
            sessionId := some "s"
            committedSegments := [⟨"a", []⟩] } :
          ComponentState).committedSegments ++ t) ∧
    getTranscriptionText (processSession
        { initialState with
          sessionId := some "s"
          committedSegments := [⟨"a", []⟩] }
        (.success ⟨some [⟨"a", []⟩, ⟨"d", []⟩], none⟩)).committedSegments =
      "a d" :=
  ⟨processSession_committed_monotone _ "s" _ rfl
      (fun c hc _ => by
        injection hc with h
        subst h
        exact ⟨[⟨"d", []⟩], rfl⟩),
    by decide⟩

/-- Claim C3 counterexample: a second stop in succession DOES persist a
second record.  `handleStopRecording` unconditionally re-sets the
pending-save flag; with the session id already cleared, `endSession` is
a no-op, the save effect's guard passes again, and the still-displayed
committed text is saved a second time.  Two stops from an active
session with committed ["hello","world"] leave two persisted records
(the claim requires one). -/
theorem double_stop_persists_twice :
    (stopFlow (stopFlow
        { initialState with
          sessionId := some "s"
          isRecording := true
          committedSegments := [⟨"hello", []⟩, ⟨"world", []⟩] }
        (.success ⟨none, none⟩) (.completed true) "t1" none)
      (.success ⟨none, none⟩) (.completed true) "t2" none).savedRecords.length
      = 2 := by
  decide

/-- Claim C3 (amended, forced by the counterexample: nothing in the
component guards a repeated stop — only the UI's button swap makes one
unreachable — so the exactly-once guarantee is per stop invocation,
not per session): one stop from an active session whose committed text
is non-blank persists exactly one `TranscriptionRecord`, whose text is
the committed texts joined with single spaces and whose `wordCount` is
the number of committed segments; the pending-save flag is cleared and
the session id is cleared. -/
theorem stop_saves_exactly_once (st : ComponentState) (sid now : String)
    (hsid : st.sessionId = some sid)
    (hne : getTranscriptionText st.committedSegments ≠ "")
    (htrim : jsTrim (getTranscriptionText st.committedSegments) ≠ "") :
    (stopFlow st (.success ⟨none, none⟩) (.completed true) now
        none).savedRecords =
      st.savedRecords ++
        [{ doctype := TRANSCRIPTIONS_DOCTYPE
           text := getTranscriptionText st.committedSegments
           language := st.language
           createdAt := now
           wordCount := st.committedSegments.length }] ∧
    (stopFlow st (.success ⟨none, none⟩) (.completed true) now
        none).shouldSave = false ∧
    (stopFlow st (.success ⟨none, none⟩) (.completed true) now
        none).sessionId = none := by
  refine ⟨?_, ?_, ?_⟩ <;>
    simp [stopFlow, handleStopRecording, stopRecordingHook, endSession,
      processSession, hsid, saveEffect, saveTranscription, hne, htrim]

/-- Claim C3 witness: stopping once from an active session with
committed ["hello","world"] appends exactly the record with text
"hello world" and word count 2. -/
theorem stop_saves_exactly_once_witness :
    ({ initialState with
        sessionId := some "s"
        isRecording := true
        committedSegments := [⟨"hello", []⟩, ⟨"world", []⟩] } :
      ComponentState).sessionId = some "s" ∧
    getTranscriptionText [(⟨"hello", []⟩ : Segment), ⟨"world", []⟩] ≠ "" ∧
    jsTrim (getTranscriptionText
      [(⟨"hello", []⟩ : Segment), ⟨"world", []⟩]) ≠ "" ∧
    (stopFlow
        { initialState with
          sessionId := some "s"
          isRecording := true
          committedSegments := [⟨"hello", []⟩, ⟨"world", []⟩] }
        (.success ⟨none, none⟩) (.completed true) "t1" none).savedRecords =
      [{ doctype := TRANSCRIPTIONS_DOCTYPE
         text := getTranscriptionText
           [(⟨"hello", []⟩ : Segment), ⟨"world", []⟩]
         language := "fr"
         createdAt := "t1"
         wordCount := 2 }] :=
  ⟨rfl, by decide, by decide,
    (stop_saves_exactly_once _ "s" "t1" rfl (by decide) (by decide)).1⟩

/-- Claim C6 counterexample: when the session-end request fails with a
network error, the source's `catch` surfaces the error but the
`setSessionId(null)` line is skipped, so the session identifier is NOT
cleared: the client does not end in Idle as the claim requires. -/
theorem endSession_network_error_keeps_session :
    (endSession
        { initialState with sessionId := some "s" }
        (.success ⟨none, none⟩)
        (.networkError "Failed to fetch")).sessionId = some "s" ∧
    (endSession
        { initialState with sessionId := some "s" }
        (.success ⟨none, none⟩)
        (.networkError "Failed to fetch")).error =
      some "Failed to fetch" := by
  decide

/-- Claim C6 (amended, forced by the counterexample: clearing the
session id happens only when the end request completes): with a session
identifier set, `endSession` performs one final `processSession`; when
the end request completes (with any HTTP status — the source never
checks it) the session identifier is cleared (Idle); when the end
request fails at the network level the error is surfaced and the
session identifier remains set. -/
theorem endSession_behavior (st : ComponentState) (sid msg : String)
    (pollOut : PollOutcome) (ok : Bool) (hsid : st.sessionId = some sid) :
    endSession st pollOut (.completed ok) =
      { processSession st pollOut with sessionId := none } ∧
    endSession st pollOut (.networkError msg) =
      { processSession st pollOut with error := some msg } ∧
    (endSession st pollOut (.networkError msg)).sessionId = some sid := by
  refine ⟨?_, ?_, ?_⟩
  · simp [endSession, hsid]
  · simp [endSession, hsid]
  · simp [endSession, hsid, processSession_sessionId]

/-- Claim C6 witness: ending a session with a successful poll and a
completed end request clears the session identifier. -/
theorem endSession_behavior_witness :
    ({ initialState with sessionId := some "s" } :
      ComponentState).sessionId = some "s" ∧
    endSession { initialState with sessionId := some "s" }
        (.success ⟨none, none⟩) (.completed true) =
      { processSession { initialState with sessionId := some "s" }
          (.success ⟨none, none⟩) with sessionId := none } :=
  ⟨rfl,
    (endSession_behavior _ "s" "m" (.success ⟨none, none⟩) true rfl).1⟩

/-- Claim C7: a failed `createSession` (non-2xx response or network
error) surfaces a failure message, leaves the stored session identifier
unset and never leaves the client recording (Active). -/
theorem createSession_failure_safe (st : ComponentState)
    (out : CreateOutcome) (micOk : Bool)
    (hfail : out = CreateOutcome.httpError ∨
      ∃ m, out = CreateOutcome.networkError m)
    (hsid : st.sessionId = none) (hrec : st.isRecording = false) :
    (handleStartRecording st out micOk).sessionId = none ∧
    (handleStartRecording st out micOk).isRecording = false ∧
    ∃ m, (handleStartRecording st out micOk).error = some m := by
  rcases hfail with rfl | ⟨m, rfl⟩ <;>
    simp [handleStartRecording, createSession, hsid, hrec]

/-- Claim C7 witness: a non-2xx create response from the initial state
leaves no session, no recording, and the fixed failure message. -/
theorem createSession_failure_safe_witness :
    ((CreateOutcome.httpError = CreateOutcome.httpError ∨
      ∃ m, CreateOutcome.httpError = CreateOutcome.networkError m) ∧
      initialState.sessionId = none ∧ initialState.isRecording = false) ∧
    (handleStartRecording initialState CreateOutcome.httpError
      true).sessionId = none :=
  ⟨⟨Or.inl rfl, rfl, rfl⟩,
    (createSession_failure_safe initialState CreateOutcome.httpError true
      (Or.inl rfl) rfl rfl).1⟩

/-- Claim C8: a failed `sendChunk` (non-2xx response or network error)
surfaces an error message and changes nothing else: session identifier,
committed and uncommitted segment lists, recording flag, pending-save
flag and persisted records are all untouched — the session is not
aborted and capture continues. -/
theorem sendChunk_failure_preserves_state (st : ComponentState)
    (out : ChunkOutcome)
    (hfail : out = ChunkOutcome.httpError ∨
      ∃ m, out = ChunkOutcome.networkError m) :
    (sendChunk st out).sessionId = st.sessionId ∧
    (sendChunk st out).committedSegments = st.committedSegments ∧
    (sendChunk st out).uncommittedSegments = st.uncommittedSegments ∧
    (sendChunk st out).isRecording = st.isRecording ∧
    (sendChunk st out).shouldSave = st.shouldSave ∧
    (sendChunk st out).savedRecords = st.savedRecords ∧
    ∃ m, (sendChunk st out).error = some m := by
  rcases hfail with rfl | ⟨m, rfl⟩ <;> simp [sendChunk]

/-- Claim C8 witness: a network error on `sendChunk` during an active
recording keeps the session identifier intact. -/
theorem sendChunk_failure_preserves_state_witness :
    (ChunkOutcome.networkError "boom" = ChunkOutcome.httpError ∨
      ∃ m, ChunkOutcome.networkError "boom" =
        ChunkOutcome.networkError m) ∧
    (sendChunk
        { initialState with
          sessionId := some "s"
          isRecording := true }
        (ChunkOutcome.networkError "boom")).sessionId =
      ({ initialState with
          sessionId := some "s"
          isRecording := true } : ComponentState).sessionId :=
  ⟨Or.inr ⟨"boom", rfl⟩,
    (sendChunk_failure_preserves_state _ (ChunkOutcome.networkError "boom")
      (Or.inr ⟨"boom", rfl⟩)).1⟩

/-- Claim C10: when the save effect runs (pending-save set, session id
cleared) and the joined committed text is non-empty but trims to the
empty string, no record is persisted and no error is raised (silently
skipped), yet the pending-save flag is still cleared, so no later save
occurs for that session. -/
theorem whitespace_only_save_skipped (st : ComponentState) (now : String)
    (saveErr : Option String)
    (hshould : st.shouldSave = true) (hsid : st.sessionId = none)
    (hne : getTranscriptionText st.committedSegments ≠ "")
    (hws : jsTrim (getTranscriptionText st.committedSegments) = "") :
    (saveEffect st now saveErr).savedRecords = st.savedRecords ∧
    (saveEffect st now saveErr).shouldSave = false ∧
    (saveEffect st now saveErr).error = st.error := by
  refine ⟨?_, ?_, ?_⟩ <;>
    simp [saveEffect, hshould, hsid, saveTranscription, hws]

/-- Claim C10 witness: a single committed segment of three spaces gives
the non-empty text "   " which trims to ""; the save effect persists
nothing and clears the flag. -/
theorem whitespace_only_save_skipped_witness :
    (({ initialState with
        shouldSave := true
        committedSegments := [⟨"   ", []⟩] } :
      ComponentState).shouldSave = true ∧
      getTranscriptionText [(⟨"   ", []⟩ : Segment)] ≠ "" ∧
      jsTrim (getTranscriptionText [(⟨"   ", []⟩ : Segment)]) = "") ∧
    (saveEffect
        { initialState with
          shouldSave := true
          committedSegments := [⟨"   ", []⟩] } "t1" none).savedRecords
      = [] :=
  ⟨⟨rfl, by decide, by decide⟩,
    (whitespace_only_save_skipped _ "t1" none rfl rfl
      (by decide) (by decide)).1⟩
